import Mathlib

/-!
Verification of the lynx host-telemetry hub and agent against its
natural-language specification.

The Rust sources are shallowly embedded: 64-bit IEEE doubles are modelled
by the type `F` below (rationals extended with NaN and the two infinities;
rounding is not modelled, every computation the theorems touch is exact),
unsigned 64-bit counters by `Nat` with explicit `% 2^64` where wrap-around
matters, fallible functions by `Except`/`Option`, and database / network
effects by explicit state passing.
-/

instance {ε α : Type} [DecidableEq ε] [DecidableEq α] : DecidableEq (Except ε α) := fun x y =>
  match x, y with
  | .ok a, .ok b =>
    if h : a = b then .isTrue (by rw [h]) else .isFalse (by intro hc; cases hc; exact h rfl)
  | .error a, .error b =>
    if h : a = b then .isTrue (by rw [h]) else .isFalse (by intro hc; cases hc; exact h rfl)
  | .ok _, .error _ => .isFalse (by intro hc; cases hc)
  | .error _, .ok _ => .isFalse (by intro hc; cases hc)

set_option maxRecDepth 8000

namespace Lynx

/-! ### String helpers

The runtime's string-search routines (`str::split` and friends) are
re-implemented structurally over character lists so that every definition
below evaluates inside the kernel. -/

/-- `str::split` by a literal non-empty separator: the pieces between
non-overlapping leftmost matches.  One unit of fuel per consumed character
is always sufficient. -/
def splitSepGo : Nat → List Char → List Char → List Char → List (List Char)
  | _, _, acc, [] => [acc.reverse]
  | 0, _, acc, rest => [acc.reverse ++ rest]
  | fuel + 1, sep, acc, c :: rest =>
    if sep.isPrefixOf (c :: rest) then
      acc.reverse :: splitSepGo fuel sep [] ((c :: rest).drop sep.length)
    else
      splitSepGo fuel sep (c :: acc) rest

def splitSep (s sep : String) : List String :=
  (splitSepGo s.toList.length sep.toList [] s.toList).map (fun cs => ⟨cs⟩)

/-- `str::splitn(2, ch)`: the text before the first occurrence of `ch` and
the remainder, or `none` when `ch` does not occur. -/
def splitFirst (sepChar : Char) : List Char → Option (List Char × List Char)
  | [] => none
  | c :: rest =>
    if c = sepChar then some ([], rest)
    else (splitFirst sepChar rest).map (fun p => (c :: p.1, p.2))

/-- `char`-pattern `str::replace`. -/
def replaceChar (pat sub : Char) (s : String) : String :=
  ⟨s.toList.map (fun c => if c = pat then sub else c)⟩

def upperStr (s : String) : String := ⟨s.toList.map Char.toUpper⟩

/-- Digit run to a natural number. -/
def natOfDigits (cs : List Char) : ℕ :=
  cs.foldl (fun n c => 10 * n + (c.toNat - '0'.toNat)) 0

/-- `str::parse::<i32>` on a decimal string (overflow not modelled; the ids
involved are small). -/
def parseIntChars : List Char → Option Int
  | [] => none
  | '-' :: ds =>
    if !ds.isEmpty && ds.all Char.isDigit then
      some (-(natOfDigits ds : Int))
    else none
  | ds =>
    if ds.all Char.isDigit then some (natOfDigits ds : Int) else none

/-- IEEE-754 double values as used by the rule engine: a rational payload
extended with NaN and signed infinities.  Rounding of finite results is not
modelled; NaN propagation and comparison semantics follow IEEE-754. -/
inductive F
  | nan
  | inf (positive : Bool)
  | val (q : ℚ)
  deriving DecidableEq, Repr

namespace F

def isNaN : F → Bool
  | nan => true
  | _ => false

/-- IEEE `<`: false whenever either operand is NaN. -/
def flt : F → F → Bool
  | nan, _ => false
  | _, nan => false
  | inf true, _ => false
  | inf false, inf false => false
  | inf false, _ => true
  | val _, inf true => true
  | val _, inf false => false
  | val a, val b => decide (a < b)

/-- IEEE `<=`: false whenever either operand is NaN. -/
def fle : F → F → Bool
  | nan, _ => false
  | _, nan => false
  | inf true, inf true => true
  | inf true, _ => false
  | inf false, _ => true
  | val _, inf true => true
  | val _, inf false => false
  | val a, val b => decide (a ≤ b)

/-- IEEE `==`: false whenever either operand is NaN. -/
def feq : F → F → Bool
  | nan, _ => false
  | _, nan => false
  | inf a, inf b => a == b
  | val a, val b => a == b
  | _, _ => false

def fgt (a b : F) : Bool := flt b a

def fge (a b : F) : Bool := fle b a

def sub : F → F → F
  | nan, _ => nan
  | _, nan => nan
  | inf a, inf b => if a = b then nan else inf a
  | inf a, val _ => inf a
  | val _, inf b => inf (!b)
  | val a, val b => val (a - b)

def fabs : F → F
  | nan => nan
  | inf _ => inf true
  | val a => val |a|

def div : F → F → F
  | nan, _ => nan
  | _, nan => nan
  | inf _, inf _ => nan
  | inf a, val b => if b < 0 then inf (!a) else inf a
  | val _, inf _ => val 0
  | val a, val b =>
    if b = 0 then (if a = 0 then nan else if a < 0 then inf false else inf true)
    else val (a / b)

def mul : F → F → F
  | nan, _ => nan
  | _, nan => nan
  | inf a, inf b => inf (a == b)
  | inf a, val b => if b = 0 then nan else if b < 0 then inf (!a) else inf a
  | val a, inf b => if a = 0 then nan else if a < 0 then inf (!b) else inf b
  | val a, val b => val (a * b)

/-- `f64::EPSILON` = 2⁻⁵². -/
def epsilon : F := val (1 / 2 ^ 52)

end F

/-! ## `lynx-core/src/notify/rules.rs`: rule data model, parser, evaluator -/

inductive Operator
  | greaterThan
  | lessThan
  | greaterThanOrEqual
  | lessThanOrEqual
  | equal
  | notEqual
  deriving DecidableEq, Repr

inductive LogicalOperator
  | and
  | or
  deriving DecidableEq, Repr

structure Condition where
  component : String
  metric : String
  operator : Operator
  value : F
  next_logical : Option LogicalOperator
  deriving DecidableEq, Repr

structure Rule where
  id : Int
  name : String
  enabled : Bool
  description : String
  severity : String
  conditions : List Condition
  deriving DecidableEq, Repr

/-- The error enum of the notify module (its defining file is not under the
captured sources; the variants are reconstructed from the constructor calls
in `rules.rs` and `components.rs`). -/
inductive MetricError
  | componentNotFound (msg : String)
  | metricNotFound (msg : String)
  | invalidValue (msg : String)
  deriving DecidableEq, Repr

/-- `Operator::from_str` (`rules.rs`). -/
def Operator.fromStr (s : String) : Except MetricError Operator :=
  if s = ">" then .ok .greaterThan
  else if s = "<" then .ok .lessThan
  else if s = ">=" then .ok .greaterThanOrEqual
  else if s = "<=" then .ok .lessThanOrEqual
  else if s = "==" then .ok .equal
  else if s = "!=" then .ok .notEqual
  else .error (.invalidValue ("Invalid operator: " ++ s))

/-- `LogicalOperator::from_str` (`rules.rs`): matches on the uppercased input. -/
def LogicalOperator.fromStr (s : String) : Except MetricError LogicalOperator :=
  if upperStr s = "AND" then .ok .and
  else if upperStr s = "OR" then .ok .or
  else .error (.invalidValue ("Invalid logical operator: " ++ s))

/-! ### The expression parser (`RuleParser::parse_expression`)

The two regexes
`^([a-zA-Z0-9_]+)\.([a-zA-Z0-9_]+)\s*([<>!=]+)\s*([a-zA-Z0-9_.]+)` and
`\s+(AND|OR)\s+` are embedded as deterministic scanners: every repeated
class in the clause regex is followed by a character outside the class, so
greedy maximal-munch matching coincides with the regex engine's semantics. -/

def isWordChar (c : Char) : Bool := c.isAlpha || c.isDigit || c = '_'

def isOpChar (c : Char) : Bool := c = '<' || c = '>' || c = '!' || c = '='

def isValueChar (c : Char) : Bool := isWordChar c || c = '.'

def isSpaceChar (c : Char) : Bool := c.isWhitespace

/-- Match `COMPONENT_RE` at the start of a segment (the regex is anchored with
`^` and tolerates trailing text), returning the four capture groups. -/
def matchClause (cs : List Char) : Option (String × String × String × String) :=
  let comp := cs.takeWhile isWordChar
  if comp.isEmpty then none else
  match cs.dropWhile isWordChar with
  | '.' :: r1 =>
    let metric := r1.takeWhile isWordChar
    if metric.isEmpty then none else
    let r3 := (r1.dropWhile isWordChar).dropWhile isSpaceChar
    let op := r3.takeWhile isOpChar
    if op.isEmpty then none else
    let r5 := (r3.dropWhile isOpChar).dropWhile isSpaceChar
    let value := r5.takeWhile isValueChar
    if value.isEmpty then none else
    some (⟨comp⟩, ⟨metric⟩, ⟨op⟩, ⟨value⟩)
  | _ => none

/-- Match `LOGICAL_RE` = `\s+(AND|OR)\s+` at the start of `cs`; on success
return the trimmed operator text and the remainder after the match. -/
def matchLogicalAt (cs : List Char) : Option (String × List Char) :=
  let r1 := cs.dropWhile isSpaceChar
  if (cs.takeWhile isSpaceChar).isEmpty then none else
  let tryKw (kw : List Char) : Option (List Char) :=
    if r1.take kw.length = kw then
      let r2 := r1.drop kw.length
      if (r2.takeWhile isSpaceChar).isEmpty then none
      else some (r2.dropWhile isSpaceChar)
    else none
  match tryKw ['A', 'N', 'D'] with
  | some r => some ("AND", r)
  | none =>
    match tryKw ['O', 'R'] with
    | some r => some ("OR", r)
    | none => none

/-- Scan for the leftmost, non-overlapping matches of `LOGICAL_RE`, returning
the segments between matches (`Regex::split`) and the matched operators
(`find_iter` + `trim`).  The fuel argument bounds the recursion; one unit per
consumed character is always sufficient. -/
def splitLogicalGo : Nat → List Char → List Char → List String × List String
  | _, acc, [] => ([⟨acc.reverse⟩], [])
  | 0, acc, rest => ([⟨acc.reverse ++ rest⟩], [])
  | fuel + 1, acc, c :: rest =>
    match matchLogicalAt (c :: rest) with
    | some (op, after) =>
      let (segs, ops) := splitLogicalGo fuel [] after
      (⟨acc.reverse⟩ :: segs, op :: ops)
    | none => splitLogicalGo fuel (c :: acc) rest

def splitLogical (cs : List Char) : List String × List String :=
  splitLogicalGo cs.length [] cs

/-- `str::parse::<f64>` restricted to the capture-group alphabet
`[a-zA-Z0-9_.]` (signs cannot occur): case-insensitive `inf`/`infinity`/`nan`,
or digits with at most one dot and an optional `e`/`E` exponent. -/
def parseF64Chars (cs : List Char) : Option F :=
  let finishExp (q : ℚ) : List Char → Option F
    | [] => some (F.val q)
    | e :: rest =>
      if e = 'e' || e = 'E' then
        let ds := rest.takeWhile Char.isDigit
        if ds.isEmpty || !(rest.dropWhile Char.isDigit).isEmpty then none
        else some (F.val (q * 10 ^ natOfDigits ds))
      else none
  let lower := cs.map Char.toLower
  if lower = "inf".toList || lower = "infinity".toList then some (F.inf true)
  else if lower = "nan".toList then some F.nan
  else
    let intPart := cs.takeWhile Char.isDigit
    match cs.dropWhile Char.isDigit with
    | '.' :: r2 =>
      let fracPart := r2.takeWhile Char.isDigit
      if intPart.isEmpty && fracPart.isEmpty then none
      else
        finishExp ((natOfDigits intPart : ℚ) +
          (natOfDigits fracPart : ℚ) / 10 ^ fracPart.length) (r2.dropWhile Char.isDigit)
    | rest =>
      if intPart.isEmpty then none
      else finishExp (natOfDigits intPart : ℚ) rest

def parseF64 (s : String) : Option F := parseF64Chars s.toList

/-- `RuleParser::parse_expression` (`rules.rs`): split on the logical
operators, then for each segment either parse a clause (propagating operator
and numeric-value errors with `?`) or silently skip it when the clause regex
does not match. -/
def RuleParser.parseExpression (expression : String) :
    Except MetricError (List Condition) := do
  let (segments, operators) := splitLogical expression.toList
  let mut conditions : List Condition := []
  for p in segments.enum do
    match matchClause p.2.toList with
    | some (component, metric, opStr, valStr) =>
      let operator ← Operator.fromStr opStr
      let value ←
        match parseF64 valStr with
        | some v => pure v
        | none => throw (.invalidValue ("Invalid numeric value: " ++ valStr))
      let next_logical ←
        if h : p.1 < operators.length then do
          let op ← LogicalOperator.fromStr (operators.get ⟨p.1, h⟩)
          pure (some op)
        else
          pure none
      conditions := conditions ++ [⟨component, metric, operator, value, next_logical⟩]
    | none => pure ()
  return conditions

/-! ### Metric payload, registry and the evaluator -/

/-- `CpuStats` from the wire schema (fields as read by the hub). -/
structure CpuStats where
  usage_percent : ℚ
  deriving DecidableEq, Repr

/-- `MemoryStats`: unsigned 64-bit kilobyte counters. -/
structure MemoryStats where
  used_kb : ℕ
  total_kb : ℕ
  deriving DecidableEq, Repr

structure DiskStats where
  name : String
  mount_point : String
  used_space : Int
  total_space : Int
  read_bytes : ℚ
  write_bytes : ℚ
  unit : String
  deriving DecidableEq, Repr

structure LoadAverage where
  one_minute : ℚ
  five_minutes : ℚ
  fifteen_minutes : ℚ
  deriving DecidableEq, Repr

/-- `NetworkStats`: the `in`/`out` megabyte counters. -/
structure NetworkStats where
  net_in : ℕ
  net_out : ℕ
  deriving DecidableEq, Repr

structure Component where
  label : String
  temperature : ℚ
  deriving DecidableEq, Repr

/-- `MetricsRequest`: the metrics payload reported by an agent. -/
structure MetricsRequest where
  cpu_stats : Option CpuStats
  memory_stats : Option MemoryStats
  disk_stats : List DiskStats
  components : List Component
  network_stats : Option NetworkStats
  load_average : Option LoadAverage
  deriving DecidableEq, Repr

/-- `CpuComponent::get_metric` (`components.rs`). -/
def CpuComponent.getMetric (stats : CpuStats) (m : String) : Except MetricError F :=
  if m = "usage" then .ok (F.val stats.usage_percent)
  else .error (.metricNotFound ("CPU metric " ++ m ++ " not found"))

/-- `MemoryComponent::get_metric` (`components.rs`): `usage` is
`(used_kb as f64 / total_kb as f64) * 100.0`. -/
def MemoryComponent.getMetric (stats : MemoryStats) (m : String) : Except MetricError F :=
  if m = "used" then .ok (F.val stats.used_kb)
  else if m = "total" then .ok (F.val stats.total_kb)
  else if m = "usage" then
    .ok (F.mul (F.div (F.val stats.used_kb) (F.val stats.total_kb)) (F.val 100))
  else .error (.metricNotFound ("Memory metric " ++ m ++ " not found"))

/-- `DiskComponent::find_main_disk` (`components.rs`). -/
def DiskComponent.findMainDisk (stats : List DiskStats) : Option DiskStats :=
  stats.find? (fun d => d.mount_point = "/")

/-- `DiskComponent::get_metric` (`components.rs`). -/
def DiskComponent.getMetric (stats : List DiskStats) (m : String) : Except MetricError F :=
  match DiskComponent.findMainDisk stats with
  | none => .error (.componentNotFound "Main disk (/) not found")
  | some d =>
    if m = "used" then .ok (F.val d.used_space)
    else if m = "total" then .ok (F.val d.total_space)
    else if m = "usage" then
      .ok (F.mul (F.div (F.val d.used_space) (F.val d.total_space)) (F.val 100))
    else .error (.metricNotFound ("Disk metric " ++ m ++ " not found"))

/-- `LoadComponent::get_metric` (`components.rs`). -/
def LoadComponent.getMetric (stats : LoadAverage) (m : String) : Except MetricError F :=
  if m = "one" then .ok (F.val stats.one_minute)
  else if m = "five" then .ok (F.val stats.five_minutes)
  else if m = "fifteen" then .ok (F.val stats.fifteen_minutes)
  else .error (.metricNotFound ("Load metric " ++ m ++ " not found"))

/-- `NetworkComponent::get_metric` (`components.rs`). -/
def NetworkComponent.getMetric (stats : NetworkStats) (m : String) : Except MetricError F :=
  if m = "in" then .ok (F.val stats.net_in)
  else if m = "out" then .ok (F.val stats.net_out)
  else .error (.metricNotFound ("Network metric " ++ m ++ " not found"))

/-- Modelled from the spec: the `MetricRegistry` container itself lives in a
notify-module file absent from the captured sources; per §4.7 it holds the
components registered from the current sample.  The field set and the
registration conditions mirror `NotificationProcessor::register_metrics`
(`processor.rs`): a component is present exactly when the corresponding
payload field is present (for `disk`, non-empty). -/
structure MetricRegistry where
  cpu : Option CpuStats
  memory : Option MemoryStats
  load : Option LoadAverage
  disk : Option (List DiskStats)
  network : Option NetworkStats
  deriving DecidableEq, Repr

/-- `NotificationProcessor::register_metrics` (`processor.rs`). -/
def registerMetrics (metrics : MetricsRequest) : MetricRegistry where
  cpu := metrics.cpu_stats
  memory := metrics.memory_stats
  load := metrics.load_average
  disk := if metrics.disk_stats.isEmpty then none else some metrics.disk_stats
  network := metrics.network_stats

/-- Modelled from the spec: `MetricRegistry::get_metric_value` (file absent
from the captured sources) resolves `component.metric` against the registered
components; an unknown or unregistered component is an error (§4.7 step 4).
The per-component readers are the `get_metric` implementations above. -/
def MetricRegistry.getMetricValue (r : MetricRegistry) (component metric : String) :
    Except MetricError F :=
  if component = "cpu" then
    match r.cpu with
    | some s => CpuComponent.getMetric s metric
    | none => .error (.componentNotFound ("Component " ++ component ++ " not found"))
  else if component = "memory" then
    match r.memory with
    | some s => MemoryComponent.getMetric s metric
    | none => .error (.componentNotFound ("Component " ++ component ++ " not found"))
  else if component = "load" then
    match r.load with
    | some s => LoadComponent.getMetric s metric
    | none => .error (.componentNotFound ("Component " ++ component ++ " not found"))
  else if component = "disk" then
    match r.disk with
    | some s => DiskComponent.getMetric s metric
    | none => .error (.componentNotFound ("Component " ++ component ++ " not found"))
  else if component = "network" then
    match r.network with
    | some s => NetworkComponent.getMetric s metric
    | none => .error (.componentNotFound ("Component " ++ component ++ " not found"))
  else .error (.componentNotFound ("Component " ++ component ++ " not found"))

/-- `RuleEvaluator::evaluate_condition` (`rules.rs`): resolve the metric and
compare; `==`/`!=` use the `|a − b| < ε` / `|a − b| ≥ ε` comparisons. -/
def RuleEvaluator.evaluateCondition (r : MetricRegistry) (c : Condition) :
    Except MetricError Bool := do
  let metricValue ← r.getMetricValue c.component c.metric
  return match c.operator with
  | .greaterThan => F.fgt metricValue c.value
  | .lessThan => F.flt metricValue c.value
  | .greaterThanOrEqual => F.fge metricValue c.value
  | .lessThanOrEqual => F.fle metricValue c.value
  | .equal => F.flt (F.fabs (F.sub metricValue c.value)) F.epsilon
  | .notEqual => F.fge (F.fabs (F.sub metricValue c.value)) F.epsilon

/-- `RuleEvaluator::evaluate_rule` (`rules.rs`), including its early returns:
each condition's own `next_logical` selects the match arm that merges that
condition's result into the accumulator. -/
def RuleEvaluator.evaluateRule (r : MetricRegistry) (rule : Rule) :
    Except MetricError Bool := do
  let mut result := true
  for condition in rule.conditions do
    let conditionResult ← RuleEvaluator.evaluateCondition r condition
    match condition.next_logical, result, conditionResult with
    | some .and, true, false => return false
    | some .or, false, true => return true
    | some .and, _, _ => result := result && conditionResult
    | some .or, _, _ => result := result || conditionResult
    | none, _, _ => result := conditionResult
  return result

/-- Modelled from the spec: the reference semantics of §4.7 step 5 — evaluate
the clauses left-to-right, combining each clause's result into the running
result with the `next_logical` operator recorded on the *preceding* clause. -/
def specFoldEval (r : MetricRegistry) (conds : List Condition) :
    Except MetricError Bool := do
  match conds with
  | [] => return true
  | c :: rest =>
    let mut result ← RuleEvaluator.evaluateCondition r c
    let mut prev := c
    for cond in rest do
      let cr ← RuleEvaluator.evaluateCondition r cond
      match prev.next_logical with
      | some .and => result := result && cr
      | some .or => result := result || cr
      | none => result := result
      prev := cond
    return result

/-! ## `lynx-core/src/notify/services.rs`: notifier construction -/

inductive NotificationError
  | emailError (msg : String)
  | requestError (msg : String)
  | configError (msg : String)
  | urlError (msg : String)
  deriving DecidableEq, Repr

def hexDigitVal (c : Char) : Option Nat :=
  if '0' ≤ c ∧ c ≤ '9' then some (c.toNat - '0'.toNat)
  else if 'a' ≤ c ∧ c ≤ 'f' then some (c.toNat - 'a'.toNat + 10)
  else if 'A' ≤ c ∧ c ≤ 'F' then some (c.toNat - 'A'.toNat + 10)
  else none

/-- `urlencoding::decode` restricted to single-byte (ASCII) escapes: a valid
`%XX` pair below 0x80 is decoded, any other `%` is kept literally (the crate
only errors when the decoded bytes are not UTF-8; multi-byte sequences do not
occur in the URIs considered here). -/
def urldecodeChars : List Char → List Char
  | [] => []
  | '%' :: a :: b :: rest =>
    match hexDigitVal a, hexDigitVal b with
    | some x, some y =>
      if 16 * x + y < 128 then Char.ofNat (16 * x + y) :: urldecodeChars rest
      else '%' :: a :: b :: urldecodeChars rest
    | _, _ => '%' :: urldecodeChars (a :: b :: rest)
  | c :: rest => c :: urldecodeChars rest

def urldecode (s : String) : String := ⟨urldecodeChars s.toList⟩

structure DiscordService where
  webhook_url : String
  username : String
  deriving DecidableEq, Repr

/-- `DiscordService::from_url` (`services.rs`): split the decoded URI on
`"://"` and read `channel_id`/`token` from the last two pieces
(`parts[len−2]`, `parts[len−1]`); when fewer than two pieces exist the
`usize` index wraps and both lookups miss.  The username comes from the text
after `?`, after `=`, with `+` replaced by a space. -/
def DiscordService.fromUrl (url : String) : Except NotificationError DiscordService :=
  let url := urldecode url
  let parts := splitSep url "://"
  if parts.length < 2 then .error (.configError "Invalid Discord webhook URL")
  else
    match parts.get? (parts.length - 2), parts.get? (parts.length - 1) with
    | some channelId, some token =>
      let username :=
        match (splitSep url "?").get? 1 with
        | some q =>
          match (splitSep q "=").get? 1 with
          | some u => replaceChar '+' ' ' u
          | none => "Lynx Monitor"
        | none => "Lynx Monitor"
      .ok ⟨"https://discord.com/api/webhooks/" ++ channelId ++ "/" ++ token, username⟩
    | _, _ => .error (.configError "Invalid Discord webhook URL")

/-- `NotificationServiceType` (`services.rs`).  The SMTP variant's
construction (`EmailService::from_url`, an RFC URL parse) is not modelled:
no claim exercises it, so the variant only records the raw URI. -/
inductive NotificationServiceType
  | discord (s : DiscordService)
  | email (rawUrl : String)
  deriving DecidableEq, Repr

/-- `NotificationServiceType::from_url` (`services.rs`). -/
def NotificationServiceType.fromUrl (url : String) :
    Except NotificationError NotificationServiceType :=
  if "discord://".toList.isPrefixOf url.toList then
    (DiscordService.fromUrl url).map .discord
  else if "smtp://".toList.isPrefixOf url.toList then
    .ok (.email url)
  else
    .error (.configError ("Unsupported notification service: " ++ url))

/-! ## The alert database tables (external contract, §6) -/

structure AlertRuleRow where
  id : Int
  name : String
  active : Bool
  expression : String
  severity : String
  description : String
  deriving DecidableEq, Repr

structure NotifierRow where
  id : Int
  ntype : String
  value : String
  deriving DecidableEq, Repr

/-- A row of `alert_history (system, alert, date)`; `date` in seconds. -/
structure AlertHistoryRow where
  system : Int
  alert : Int
  date : ℕ
  deriving DecidableEq, Repr

structure AlertDb where
  alertSystems : List (Int × Int)
  alertRules : List AlertRuleRow
  alertNotifiers : List (Int × Int)
  notifiers : List NotifierRow
  alertHistory : List AlertHistoryRow
  deriving DecidableEq, Repr

/-- `GET_EXISTING_ALERT` (`queries.rs`): a history row for the pair whose
`date` is within the last 30 minutes (`date ≥ now − 1800 s`). -/
def AlertDb.existingAlert (history : List AlertHistoryRow) (now : ℕ)
    (systemId ruleId : Int) : Option AlertHistoryRow :=
  history.find? (fun h => h.system = systemId && h.alert = ruleId && now ≤ h.date + 1800)

/-! ## `lynx-core/src/notify/processor.rs`: `NotificationProcessor` -/

/-- `NotificationProcessor::load_rules` (`processor.rs`): for each mapped rule
load the active rule row (a missing row aborts with an error), parse the
expression — on a parse error warn and skip the rule — and collect the
notifier URIs. -/
def NotificationProcessor.loadRules (db : AlertDb) (systemId : Int) :
    Except String (List (Rule × List String)) := do
  let alerts := db.alertSystems.filter (fun p => p.1 = systemId)
  let mut rulesWithNotifiers : List (Rule × List String) := []
  for a in alerts do
    let ruleId := a.2
    let row ←
      match db.alertRules.find? (fun r => r.id = ruleId && r.active) with
      | some r => pure r
      | none => throw "RowNotFound"
    match RuleParser.parseExpression row.expression with
    | .error _ => pure ()
    | .ok conditions =>
      let mut notifierUrls : List String := []
      for n in db.alertNotifiers.filter (fun p => p.1 = ruleId) do
        let nrow ←
          match db.notifiers.find? (fun x => x.id = n.2) with
          | some x => pure x
          | none => throw "RowNotFound"
        notifierUrls := notifierUrls ++ [nrow.value]
      rulesWithNotifiers := rulesWithNotifiers ++
        [(⟨ruleId, row.name, row.active, row.description, row.severity, conditions⟩,
          notifierUrls)]
  return rulesWithNotifiers

structure Dispatch where
  url : String
  message : String
  deriving DecidableEq, Repr

/-- `NotificationProcessor::process` (`processor.rs`): register the sample,
load the rules, and for each enabled rule without a recent history row
evaluate it; on `Ok(true)` insert a history row and send to every notifier
URI whose service constructs.  A dispatch records one `send` invocation. -/
def NotificationProcessor.process (db : AlertDb) (now : ℕ)
    (metrics : MetricsRequest) (systemId : Int) :
    Except String (AlertDb × List Dispatch) := do
  let registry := registerMetrics metrics
  let rules ← NotificationProcessor.loadRules db systemId
  let mut history := db.alertHistory
  let mut dispatches : List Dispatch := []
  for rn in rules do
    let rule := rn.1
    if !rule.enabled then
      continue
    if (AlertDb.existingAlert history now systemId rule.id).isSome then
      continue
    match RuleEvaluator.evaluateRule registry rule with
    | .ok true =>
      history := history ++ [⟨systemId, rule.id, now⟩]
      let message := "Alert: " ++ rule.name ++ "\nDescription: " ++ rule.description ++
        "\nSeverity: " ++ rule.severity ++ "\nSystem ID: " ++ toString systemId
      for url in rn.2 do
        match NotificationServiceType.fromUrl url with
        | .ok _ => dispatches := dispatches ++ [⟨url, message⟩]
        | .error _ => pure ()
    | .ok false => pure ()
    | .error _ => pure ()
  return ({ db with alertHistory := history }, dispatches)

/-! ## `lynx-core/src/notify.rs`: the `process_notification` pipeline invoked
by the hub's `report_metrics` handler -/

/-- `Condition` of `notify.rs` (operator and value kept as strings). -/
structure NCondition where
  component : String
  metric : String
  operator : String
  value : String
  next_compare : Option String
  deriving DecidableEq, Repr

structure NotificationRule where
  id : String
  name : String
  enabled : Bool
  description : String
  conditions : List NCondition
  actions : List String
  deriving DecidableEq, Repr

/-- The POST performed by `send_discord` (`notify.rs`). -/
structure DiscordPost where
  webhook_url : String
  username : String
  message : String
  deriving DecidableEq, Repr

/-- `send_discord` (`notify.rs`): `token` is the piece of the notifier value
before `@` (after `://`), `channel_id` the piece after `@` and before `?`. -/
def sendDiscord (webhookValue message : String) : Except String DiscordPost := do
  let secondHalf ←
    match (splitSep webhookValue "://").get? 1 with
    | some s => pure s
    | none => throw "Invalid Discord webhook URL format"
  let token ←
    match (splitSep secondHalf "@").get? 0 with
    | some t => pure t
    | none => throw "Invalid Discord webhook URL format"
  let thirdHalf ←
    match (splitSep secondHalf "@").get? 1 with
    | some t => pure t
    | none => throw "Invalid Discord webhook URL format"
  let channelId ←
    match (splitSep thirdHalf "?").get? 0 with
    | some c => pure c
    | none => throw "Invalid Discord webhook URL format"
  let username :=
    match (splitSep thirdHalf "?").get? 1 with
    | some q =>
      match (splitSep q "=").get? 1 with
      | some u => replaceChar '+' ' ' u
      | none => "Lynx Monitor"
    | none => "Lynx Monitor"
  return ⟨"https://discord.com/api/webhooks/" ++ channelId ++ "/" ++ token,
    username, message⟩

/-- Metric resolution of `process_notification` (`notify.rs`): only `cpu`,
`memory` and `load` are known; the stats options are `unwrap`ped (the panic
on a missing payload is modelled as an error outcome). -/
def notifyResolve (metrics : MetricsRequest) (c : NCondition) : Except String F :=
  if c.component = "cpu" then
    match metrics.cpu_stats with
    | none => .error "panicked: cpu_stats unwrap on None"
    | some s =>
      if c.metric = "usage" then .ok (F.val s.usage_percent)
      else .error "Unknown CPU metric"
  else if c.component = "memory" then
    match metrics.memory_stats with
    | none => .error "panicked: memory_stats unwrap on None"
    | some s =>
      if c.metric = "used" then .ok (F.val s.used_kb)
      else if c.metric = "total" then .ok (F.val s.total_kb)
      else if c.metric = "usage" then
        .ok (F.mul (F.div (F.val s.used_kb) (F.val s.total_kb)) (F.val 100))
      else .error "Unknown Memory metric"
  else if c.component = "load" then
    match metrics.load_average with
    | none => .error "panicked: load_average unwrap on None"
    | some s =>
      if c.metric = "one" then .ok (F.val s.one_minute)
      else if c.metric = "five" then .ok (F.val s.five_minutes)
      else if c.metric = "fifteen" then .ok (F.val s.fifteen_minutes)
      else .error "Unknown Load metric"
  else .error "Unknown component"

/-- The comparison of `process_notification` (`notify.rs`): the threshold is
re-parsed from its string; `==`/`!=` are the plain IEEE comparisons here. -/
def notifyCompare (v : F) (c : NCondition) : Except String Bool := do
  let cv ←
    match parseF64 c.value with
    | some x => pure x
    | none => throw "ParseFloatError"
  if c.operator = ">" then pure (F.fgt v cv)
  else if c.operator = "<" then pure (F.flt v cv)
  else if c.operator = ">=" then pure (F.fge v cv)
  else if c.operator = "<=" then pure (F.fle v cv)
  else if c.operator = "==" then pure (F.feq v cv)
  else if c.operator = "!=" then pure (!(F.feq v cv))
  else throw "Invalid operator"

/-- `process_notification` (`notify.rs`): load the mapped active rules,
parse conditions inline (the notifier `actions` are accumulated inside the
segment loop, once per segment), evaluate — the running result is overwritten
by each condition's comparison, and the `"and"`/`"or"` short-circuit tests
compare against lowercase while the stored operators are uppercase — then on
a firing rule send to every `Discord` action and insert a history row.  No
alert-history lookup precedes the dispatch. -/
def processNotification (db : AlertDb) (now : ℕ) (metrics : MetricsRequest)
    (systemId : Int) : Except String (AlertDb × List DiscordPost) := do
  let mut rules : List NotificationRule := []
  for a in db.alertSystems.filter (fun p => p.1 = systemId) do
    let row ←
      match db.alertRules.find? (fun r => r.id = a.2 && r.active) with
      | some r => pure r
      | none => throw "RowNotFound"
    let notifierPairs := db.alertNotifiers.filter (fun p => p.1 = a.2)
    let (segments, operators) := splitLogical row.expression.toList
    let mut conditions : List NCondition := []
    let mut actions : List String := []
    for p in segments.enum do
      match matchClause p.2.toList with
      | some (component, metric, opStr, valStr) =>
        let nextCompare :=
          if h : p.1 < operators.length then some (operators.get ⟨p.1, h⟩) else none
        conditions := conditions ++ [⟨component, metric, opStr, valStr, nextCompare⟩]
      | none => pure ()
      for n in notifierPairs do
        let nrow ←
          match db.notifiers.find? (fun x => x.id = n.2) with
          | some x => pure x
          | none => throw "RowNotFound"
        actions := actions ++ [nrow.ntype ++ ":" ++ nrow.value]
    rules := rules ++ [⟨toString row.id, row.name, row.active, "poop", conditions, actions⟩]
  let mut history := db.alertHistory
  let mut posts : List DiscordPost := []
  for rule in rules do
    let mut conditionsMet := false
    for condition in rule.conditions do
      let metricValue ← notifyResolve metrics condition
      let comparisonResult ← notifyCompare metricValue condition
      conditionsMet := comparisonResult
      match condition.next_compare with
      | some nc =>
        if nc = "and" && !conditionsMet then break
        else pure ()
      | none => pure ()
    if conditionsMet then
      for action in rule.actions do
        match splitFirst ':' action.toList with
        | none => continue
        | some (tyChars, valChars) =>
          if (⟨tyChars⟩ : String) = "Discord" then
            match sendDiscord ⟨valChars⟩ ("Alert: " ++ rule.name ++ "\nDescription: " ++
                rule.description ++ "\nCondition met on system ID " ++ toString systemId) with
            | .ok post => posts := posts ++ [post]
            | .error _ => pure ()
          else
            continue
      let rid ←
        match parseIntChars rule.id.toList with
        | some i => pure i
        | none => throw "ParseIntError"
      history := history ++ [⟨systemId, rid, now⟩]
  return ({ db with alertHistory := history }, posts)

/-! ## `lynx-core/src/cache.rs`: the hub's `Cache` -/

structure LogEntry where
  level : String
  message : String
  ts : ℕ
  deriving DecidableEq, Repr

structure ConfigChange where
  key : String
  old_value : Option String
  new_value : String
  ts : ℕ
  deriving DecidableEq, Repr

/-- `SystemService` from the wire schema (fields as used by the hub's cache
and its snapshot; the `Serializable` mirror copies all six fields both
ways). -/
structure SystemService where
  service_name : String
  description : String
  pid : ℕ
  state : String
  cpu : String
  memory : String
  deriving DecidableEq, Repr

structure Cache where
  services : List (String × SystemService)
  config_changes : List ConfigChange
  logs : List LogEntry
  max_logs : ℕ
  max_config_changes : ℕ
  deriving DecidableEq, Repr

def Cache.new (maxLogs maxConfigChanges : ℕ) : Cache :=
  ⟨[], [], [], maxLogs, maxConfigChanges⟩

/-- `Cache::upsert_service`: `DashMap::insert` keyed on the service name. -/
def Cache.upsertService (c : Cache) (svc : SystemService) : Cache :=
  if c.services.any (fun p => p.1 = svc.service_name) then
    { c with services :=
        c.services.map (fun p => if p.1 = svc.service_name then (p.1, svc) else p) }
  else
    { c with services := c.services ++ [(svc.service_name, svc)] }

def Cache.getService (c : Cache) (name : String) : Option SystemService :=
  (c.services.find? (fun p => p.1 = name)).map Prod.snd

def Cache.serviceCount (c : Cache) : ℕ := c.services.length

/-- The push-then-trim step shared by `record_log` and
`record_config_change`: push the entry, and when the length exceeds the
bound drain the overflow from the front. -/
def pushTrim {α : Type} (maxLen : ℕ) (xs : List α) (x : α) : List α :=
  let g := xs ++ [x]
  if maxLen < g.length then g.drop (g.length - maxLen) else g

/-- `Cache::record_log` (`cache.rs`). -/
def Cache.recordLog (c : Cache) (level message : String) (now : ℕ) : Cache :=
  { c with logs := pushTrim c.max_logs c.logs ⟨level, message, now⟩ }

/-- `Cache::record_config_change` (`cache.rs`). -/
def Cache.recordConfigChange (c : Cache) (key : String) (oldValue : Option String)
    (newValue : String) (now : ℕ) : Cache :=
  { c with config_changes :=
      pushTrim c.max_config_changes c.config_changes ⟨key, oldValue, newValue, now⟩ }

def Cache.logCount (c : Cache) : ℕ := c.logs.length

def Cache.configChangeCount (c : Cache) : ℕ := c.config_changes.length

/-- The `CacheSnapshot` blob.  `snapshot_to_file` and `load_from_file` move
it through `bincode` and the filesystem; serialisation is modelled as the
faithful transport of this value (the `Serializable` conversions preserve
every field). -/
structure CacheSnapshot where
  services : List SystemService
  config_changes : List ConfigChange
  logs : List LogEntry
  deriving DecidableEq, Repr

/-- `Cache::snapshot_to_file` (`cache.rs`): the value written. -/
def Cache.snapshot (c : Cache) : CacheSnapshot :=
  ⟨c.services.map Prod.snd, c.config_changes, c.logs⟩

/-- `Cache::load_from_file` (`cache.rs`): upsert every snapshotted service
(additive) and replace both rings. -/
def Cache.loadSnapshot (c : Cache) (snap : CacheSnapshot) : Cache :=
  let c' := snap.services.foldl Cache.upsertService c
  { c' with config_changes := snap.config_changes, logs := snap.logs }

/-! ## `lynx-core/src/services/monitor.rs`: the hub's ingestion handlers -/

inductive Status
  | unauthenticated (msg : String)
  | invalidArgument (msg : String)
  | internal (msg : String)
  deriving DecidableEq, Repr

/-- A row of the `systems` table as consulted by the handlers. -/
structure SystemRow where
  id : Int
  key : String
  active : Bool
  deriving DecidableEq, Repr

/-- The `x-agent-key` metadata entry; `valid` records whether `to_str()`
succeeds on it. -/
structure MetadataKey where
  valid : Bool
  value : String
  deriving DecidableEq, Repr

/-- `SELECT id, cpu, hostname FROM systems WHERE key = $1 AND active = true`
(`fetch_optional`). -/
def lookupActiveSystem (systems : List SystemRow) (key : String) : Option SystemRow :=
  systems.find? (fun s => s.key = key && s.active)

structure SystemInfoRequest where
  hostname : String
  os : String
  kernel_version : String
  uptime_seconds : ℕ
  cpu_model : String
  cpu_count : ℕ
  deriving DecidableEq, Repr

/-- One persisted effect of a handler. -/
inductive DbWrite
  | insertMetrics (systemId : Int)
  | insertDisk (systemId : Int) (name : String)
  | recordCacheLog
  | updateSystemInfo (systemId : Int)
  | upsertCacheService (name : String)
  | updateService (systemId : Int) (name : String)
  | insertService (systemId : Int) (name : String)
  deriving DecidableEq, Repr

/-- The authentication preamble shared verbatim by the three handlers:
missing header → `unauthenticated`, unreadable header → `invalid_argument`,
no active system for the key → `unauthenticated`. -/
def authenticateAgent (systems : List SystemRow) (header : Option MetadataKey) :
    Except Status SystemRow :=
  match header with
  | none => .error (.unauthenticated "Missing key")
  | some k =>
    if !k.valid then .error (.invalidArgument "Invalid key")
    else
      match lookupActiveSystem systems k.value with
      | none => .error (.unauthenticated "Invalid or inactive agent key")
      | some system => .ok system

/-- `MyMonitor::report_metrics` (`monitor.rs`): authenticate, then (after
spawning the notification task) unwrap the stats — the panic on a missing
payload is modelled as an internal error with no writes — and persist the
metric row, one row per disk, and the cache log line. -/
def MyMonitor.reportMetrics (systems : List SystemRow) (header : Option MetadataKey)
    (metrics : MetricsRequest) : Except Status (String × String) × List DbWrite :=
  match authenticateAgent systems header with
  | .error e => (.error e, [])
  | .ok system =>
    match metrics.network_stats, metrics.load_average,
        metrics.cpu_stats, metrics.memory_stats with
    | some _, some _, some _, some _ =>
      (.ok ("200", "Metrics reported successfully"),
        .insertMetrics system.id ::
          (metrics.disk_stats.map (fun d => .insertDisk system.id d.name) ++
            [.recordCacheLog]))
    | _, _, _, _ => (.error (.internal "panicked: stats unwrap on None"), [])

/-- `MyMonitor::get_system_info` (`monitor.rs`). -/
def MyMonitor.getSystemInfo (systems : List SystemRow) (header : Option MetadataKey)
    (_req : SystemInfoRequest) : Except Status (String × String) × List DbWrite :=
  match authenticateAgent systems header with
  | .error e => (.error e, [])
  | .ok system =>
    (.ok ("200", "Metrics reported successfully"), [.updateSystemInfo system.id])

/-- `MyMonitor::report_systemctl` (`monitor.rs`): authenticate, then per
service upsert the cache entry and update or insert the `services` row
depending on an existence probe against `(system, name)`. -/
def MyMonitor.reportSystemctl (systems : List SystemRow)
    (servicesTable : List (Int × String)) (header : Option MetadataKey)
    (req : List SystemService) : Except Status (String × String) × List DbWrite :=
  match authenticateAgent systems header with
  | .error e => (.error e, [])
  | .ok system =>
    (.ok ("200", "Services reported successfully"),
      req.flatMap (fun svc =>
        [.upsertCacheService svc.service_name,
         if servicesTable.any (fun p => p.1 = system.id && p.2 = svc.service_name) then
           .updateService system.id svc.service_name
         else
           .insertService system.id svc.service_name]))

/-! ## `lynx-agent`: the collectors→transport queue and the network probe -/

/-- A tokio bounded mpsc channel: its capacity and buffered items. -/
structure BoundedChannel (α : Type) where
  capacity : ℕ
  buffer : List α
  deriving DecidableEq, Repr

/-- Outcome of one enqueue attempt on a bounded channel. -/
inductive SendOutcome (α : Type)
  | enqueued (ch : BoundedChannel α)
  | waits
  | dropped
  deriving DecidableEq, Repr

/-- `mpsc::Sender::send(..).await`, the call every agent collector makes
(`collectors.rs`): enqueue below capacity; on a full channel the future
suspends until the consumer frees a slot — the sample is retained, never
dropped. -/
def BoundedChannel.send {α : Type} (ch : BoundedChannel α) (x : α) : SendOutcome α :=
  if ch.buffer.length < ch.capacity then .enqueued ⟨ch.capacity, ch.buffer ++ [x]⟩
  else .waits

/-- Modelled from the spec: the enqueue policy §3 prescribes for this queue —
`try_send`, dropping the incoming sample when the queue is full. -/
def BoundedChannel.trySendSpec {α : Type} (ch : BoundedChannel α) (x : α) : SendOutcome α :=
  if ch.buffer.length < ch.capacity then .enqueued ⟨ch.capacity, ch.buffer ++ [x]⟩
  else .dropped

/-- `CollectorRequest` (`collectors.rs`); the GPU payloads are opaque here. -/
inductive CollectorRequest
  | metrics (m : MetricsRequest)
  | gpuInfo
  | gpuMetrics
  | systemInfo (s : SystemInfoRequest)
  | systemctl (s : List SystemService)
  deriving DecidableEq, Repr

/-- The capacity of the collectors→transport queue (`main.rs`:
`mpsc::channel::<CollectorRequest>(1024)`). -/
def agentQueueCapacity : ℕ := 1024

/-- The enqueue performed by `MetricsCollector::collect` for a metrics
sample (`collectors.rs`: `tx.send(CollectorRequest::Metrics(metrics)).await`). -/
def MetricsCollector.sendMetrics (ch : BoundedChannel CollectorRequest)
    (m : MetricsRequest) : SendOutcome CollectorRequest :=
  ch.send (.metrics m)

def U64_MOD : ℕ := 2 ^ 64

/-- `u64` subtraction as compiled in release mode: wrap-around modulo 2⁶⁴
(debug builds panic on the same underflow — either way the result is not 0). -/
def u64WrapSub (a b : ℕ) : ℕ := (a % U64_MOD + U64_MOD - b % U64_MOD) % U64_MOD

/-- `collect_network_stats` (`system_info.rs`): two totals snapshots taken
1 s apart; each direction reports `to_mb!(second − first)` with `u64`
subtraction and integer division by 1024 twice. -/
def collectNetworkStats (first second : ℕ × ℕ) : NetworkStats :=
  ⟨u64WrapSub second.1 first.1 / 1024 / 1024,
   u64WrapSub second.2 first.2 / 1024 / 1024⟩

/-! ## Shared concrete fixtures -/

/-- A metrics payload carrying only a CPU reading of 1 %. -/
def cpuOnlyMetrics : MetricsRequest :=
  ⟨some ⟨1⟩, none, [], [], none, none⟩

/-! ## C1 -/

def c1Metrics : MetricsRequest := ⟨some ⟨1⟩, some ⟨0, 1024⟩, [], [], none, none⟩

def c1Registry : MetricRegistry := registerMetrics c1Metrics

def c1Conditions : List Condition :=
  [⟨"cpu", "usage", .greaterThan, F.val 0, some .or⟩,
   ⟨"memory", "used", .greaterThan, F.val 0, none⟩]

def c1Rule : Rule := ⟨1, "cpu or memory", true, "", "high", c1Conditions⟩

/-- C1: refuted.  For the grammar-conformant expression
`cpu.usage > 0 OR memory.used > 0` with `cpu.usage = 1` and
`memory.used = 0`, the left-to-right fold prescribed by the spec yields
`true` (the first clause holds), but `evaluate_rule` yields `false`: it
merges each clause with the clause's *own* `next_logical`, so the final
clause — whose `next_logical` is `None` — overwrites the running result. -/
theorem evaluate_rule_diverges_from_spec_fold :
    RuleParser.parseExpression "cpu.usage > 0 OR memory.used > 0" = .ok c1Conditions ∧
    RuleEvaluator.evaluateRule c1Registry c1Rule = .ok false ∧
    specFoldEval c1Registry c1Conditions = .ok true := by
  refine ⟨by decide, by decide, by decide⟩

/-! ## C2 -/

def c2Db : AlertDb :=
  ⟨[(7, 1)], [⟨1, "cpu high", true, "cpu.usage > 0", "high", "d"⟩],
   [(1, 5)], [⟨5, "Discord", "discord://123@tok"⟩], []⟩

def c2Db1 : AlertDb :=
  ((processNotification c2Db 0 cpuOnlyMetrics 7).toOption.getD (c2Db, [])).1

/-- C2: refuted.  `report_metrics` hands the payload to
`process_notification` (`notify.rs`), which performs no alert-history
lookup before sending: with a firing rule for system 7 / rule 1 the run at
`t = 0` dispatches one notification and inserts a history row, and the run
at `t = 60` — 60 s later, far inside the 30-minute suppression window —
dispatches again. -/
theorem process_notification_double_dispatch_within_window :
    (processNotification c2Db 0 cpuOnlyMetrics 7).map (fun r => r.2.length) = .ok 1 ∧
    c2Db1.alertHistory = [⟨7, 1, 0⟩] ∧
    (processNotification c2Db1 60 cpuOnlyMetrics 7).map (fun r => r.2.length) = .ok 1 ∧
    (60 : ℕ) < 1800 := by
  refine ⟨by decide, by decide, by decide, by decide⟩

/-! ## C3 -/

/-- C3: refuted.  `DiscordService::from_url` splits the URI on `"://"` only,
so for `discord://1234567890@AbcToken?username=My+Bot` the `channel_id`
capture is the scheme `discord` and the `token` capture is the whole
remainder; the username is extracted as the spec says, but the webhook URL
is not `https://discord.com/api/webhooks/1234567890/AbcToken`. -/
theorem discord_from_url_webhook_diverges :
    DiscordService.fromUrl "discord://1234567890@AbcToken?username=My+Bot" =
      .ok ⟨"https://discord.com/api/webhooks/discord/1234567890@AbcToken?username=My+Bot",
        "My Bot"⟩ ∧
    "https://discord.com/api/webhooks/discord/1234567890@AbcToken?username=My+Bot" ≠
      "https://discord.com/api/webhooks/1234567890/AbcToken" := by
  refine ⟨by decide, by decide⟩

/-! ## C5 -/

def c5Db : AlertDb :=
  ⟨[(7, 2)], [⟨2, "bad", true, "garbage", "high", "d"⟩],
   [(2, 5)], [⟨5, "Discord", "discord://123@tok"⟩], []⟩

/-- C5: refuted on its second half.  An expression with no parseable clause
parses to `Ok([])`, and `evaluate_rule` starts its accumulator at `true`, so
the empty-condition rule evaluates to `true`; `NotificationProcessor::process`
then inserts a history row and dispatches to the rule's notifier. -/
theorem zero_clause_rule_dispatches :
    RuleParser.parseExpression "garbage" = .ok [] ∧
    RuleEvaluator.evaluateRule (registerMetrics cpuOnlyMetrics)
      ⟨2, "bad", true, "d", "high", []⟩ = .ok true ∧
    (NotificationProcessor.process c5Db 0 cpuOnlyMetrics 7).map (fun r => r.2.length) =
      .ok 1 := by
  refine ⟨by decide, by decide, by decide⟩

/-! ## C8 -/

/-- C8: refuted.  When the second network snapshot is smaller than the first
(counter wrap), `to_mb!(net_in2 - net_in)` underflows the `u64` subtraction:
with first-snapshot `in` = 2 MiB and second-snapshot `in` = 0 the reported
inbound throughput is `(2⁶⁴ − 2097152) / 1024 / 1024 ≠ 0` in release builds
(debug builds panic on the same input) instead of the 0 the spec requires. -/
theorem network_counter_wrap_not_zero :
    collectNetworkStats (2097152, 0) (0, 0) =
      ⟨(2 ^ 64 - 2097152) / 1024 / 1024, 0⟩ ∧
    (2 ^ 64 - 2097152) / 1024 / 1024 ≠ 0 := by
  refine ⟨by decide, by decide⟩

/-! ## C10 -/

def nanRegistry : MetricRegistry := registerMetrics ⟨none, some ⟨0, 0⟩, [], [], none, none⟩

def condEqZero : Condition := ⟨"memory", "usage", .equal, F.val 0, none⟩

def condNeZero : Condition := ⟨"memory", "usage", .notEqual, F.val 0, none⟩

/-- C10: refuted as stated.  `memory.usage` resolves to `0/0·100 = NaN` when
`total_kb = 0`; both `|NaN − 0| < ε` and `|NaN − 0| ≥ ε` are false, so `==`
and `!=` both evaluate to `false` — `!=` is not the negation of `==` there. -/
theorem eq_ne_not_complementary_on_nan :
    ¬ (RuleEvaluator.evaluateCondition nanRegistry condNeZero =
        (RuleEvaluator.evaluateCondition nanRegistry condEqZero).map (fun b => !b)) := by
  decide

/-! ## C4 -/

/-- The collectors→transport queue at capacity 1024 filled with 1024
buffered samples. -/
def fullAgentQueue : BoundedChannel CollectorRequest :=
  ⟨agentQueueCapacity, List.replicate 1024 .gpuInfo⟩

/-- C4: refuted as stated.  On a full queue the collector's enqueue — an
awaited `send`, not a `try_send` — suspends instead of dropping the sample,
so its outcome differs from the drop-on-full policy the claim prescribes
(and no drop counter exists anywhere in the agent). -/
theorem collector_send_full_queue_waits_not_drops :
    MetricsCollector.sendMetrics fullAgentQueue cpuOnlyMetrics = .waits ∧
    BoundedChannel.trySendSpec fullAgentQueue (.metrics cpuOnlyMetrics) = .dropped ∧
    MetricsCollector.sendMetrics fullAgentQueue cpuOnlyMetrics ≠
      BoundedChannel.trySendSpec fullAgentQueue (.metrics cpuOnlyMetrics) := by
  refine ⟨by decide, by decide, by decide⟩

/-- C4 (amended): every enqueue from an agent collector to the
collectors→transport queue is an awaiting `send`: it never drops the
incoming sample — below capacity it enqueues, and on a full queue it
suspends until the consumer frees a slot. -/
theorem collector_send_never_drops (ch : BoundedChannel CollectorRequest)
    (m : MetricsRequest) :
    MetricsCollector.sendMetrics ch m ≠ .dropped ∧
    (ch.capacity ≤ ch.buffer.length → MetricsCollector.sendMetrics ch m = .waits) := by
  unfold MetricsCollector.sendMetrics BoundedChannel.send
  constructor
  · split <;> simp
  · intro h
    rw [if_neg (by omega)]

theorem collector_send_never_drops_witness :
    fullAgentQueue.capacity ≤ fullAgentQueue.buffer.length ∧
    MetricsCollector.sendMetrics fullAgentQueue cpuOnlyMetrics = .waits :=
  ⟨by decide, (collector_send_never_drops fullAgentQueue cpuOnlyMetrics).2 (by decide)⟩

/-! ## C9 -/

/-- Whether a handler outcome is the gRPC `unauthenticated` status. -/
def isUnauthenticatedErr {α : Type} : Except Status α → Bool
  | .error (.unauthenticated _) => true
  | _ => false

/-- C9: confirmed.  For each of the three ingestion handlers, a request with
no `x-agent-key` header, or whose (readable) key resolves to no active
system, is answered with an `unauthenticated` error and performs no
persistent write. -/
theorem hub_unauthenticated_no_persistence
    (systems : List SystemRow) (header : Option MetadataKey)
    (metrics : MetricsRequest) (si : SystemInfoRequest)
    (svcTable : List (Int × String)) (req : List SystemService)
    (h : header = none ∨ ∃ k, header = some k ∧ k.valid = true ∧
      lookupActiveSystem systems k.value = none) :
    (isUnauthenticatedErr (MyMonitor.reportMetrics systems header metrics).1 = true ∧
      (MyMonitor.reportMetrics systems header metrics).2 = []) ∧
    (isUnauthenticatedErr (MyMonitor.getSystemInfo systems header si).1 = true ∧
      (MyMonitor.getSystemInfo systems header si).2 = []) ∧
    (isUnauthenticatedErr (MyMonitor.reportSystemctl systems svcTable header req).1 = true ∧
      (MyMonitor.reportSystemctl systems svcTable header req).2 = []) := by
  have hauth : ∃ msg, authenticateAgent systems header = .error (.unauthenticated msg) := by
    rcases h with h | ⟨k, hk, hv, hl⟩
    · exact ⟨"Missing key", by rw [h]; rfl⟩
    · refine ⟨"Invalid or inactive agent key", ?_⟩
      simp [authenticateAgent, hk, hv, hl]
  obtain ⟨msg, hmsg⟩ := hauth
  unfold MyMonitor.reportMetrics MyMonitor.getSystemInfo MyMonitor.reportSystemctl
  rw [hmsg]
  exact ⟨⟨rfl, rfl⟩, ⟨rfl, rfl⟩, ⟨rfl, rfl⟩⟩

def emptySystemInfoReq : SystemInfoRequest := ⟨"", "", "", 0, "", 0⟩

theorem hub_unauthenticated_no_persistence_witness :
    isUnauthenticatedErr (MyMonitor.reportMetrics [] none cpuOnlyMetrics).1 = true ∧
    (MyMonitor.reportMetrics [] none cpuOnlyMetrics).2 = [] :=
  (hub_unauthenticated_no_persistence [] none cpuOnlyMetrics emptySystemInfoReq [] []
    (Or.inl rfl)).1

/-! ## C6 -/

theorem pushTrim_drop {α : Type} (maxLen : ℕ) (ys : List α) (x : α) :
    pushTrim maxLen (ys.drop (ys.length - maxLen)) x =
      (ys ++ [x]).drop (ys.length + 1 - maxLen) := by
  unfold pushTrim
  by_cases hm : ys.length + 1 ≤ maxLen
  · have h0 : ys.length - maxLen = 0 := by omega
    have h1 : ys.length + 1 - maxLen = 0 := by omega
    rw [h0, h1]
    simp only [List.drop_zero]
    rw [if_neg (by simp; omega)]
  · have hlen : (ys.drop (ys.length - maxLen)).length = maxLen := by
      simp only [List.length_drop]; omega
    rw [if_pos (by simp only [List.length_append, hlen, List.length_cons,
      List.length_nil]; omega)]
    have hov : (ys.drop (ys.length - maxLen) ++ [x]).length - maxLen = 1 := by
      simp only [List.length_append, hlen, List.length_cons, List.length_nil]
      omega
    rw [hov]
    rcases Nat.eq_zero_or_pos maxLen with h0 | hpos
    · subst h0
      have : ys.drop (ys.length - 0) = ([] : List α) := by
        simp [List.drop_eq_nil_iff]
      rw [this]
      have : (ys ++ [x]).drop (ys.length + 1 - 0) = ([] : List α) := by
        simp [List.drop_eq_nil_iff]
      rw [this]
      rfl
    · conv_lhs => rw [List.drop_append_of_le_length (by rw [hlen]; omega)]
      conv_rhs => rw [List.drop_append_of_le_length (by omega)]
      have hidx : ys.length - maxLen + 1 = ys.length + 1 - maxLen := by omega
      rw [List.drop_drop, hidx]

theorem foldl_pushTrim {α : Type} (maxLen : ℕ) (xs : List α) :
    xs.foldl (pushTrim maxLen) [] = xs.drop (xs.length - maxLen) := by
  induction xs using List.reverseRecOn with
  | nil => simp
  | append_singleton ys x ih =>
    rw [List.foldl_append, List.foldl_cons, List.foldl_nil, ih, pushTrim_drop]
    simp

theorem foldl_recordLog (es : List LogEntry) (c : Cache) :
    es.foldl (fun acc e => acc.recordLog e.level e.message e.ts) c =
      { c with logs := es.foldl (pushTrim c.max_logs) c.logs } := by
  induction es generalizing c with
  | nil => rfl
  | cons e es ih =>
    rw [List.foldl_cons, List.foldl_cons, ih]
    rfl

theorem foldl_recordConfigChange (cs : List ConfigChange) (c : Cache) :
    cs.foldl (fun acc e => acc.recordConfigChange e.key e.old_value e.new_value e.ts) c =
      { c with config_changes := cs.foldl (pushTrim c.max_config_changes) c.config_changes } := by
  induction cs generalizing c with
  | nil => rfl
  | cons e cs ih =>
    rw [List.foldl_cons, List.foldl_cons, ih]
    rfl

/-- C6: confirmed.  Starting from a fresh cache with bounds `L` and `M`,
after recording the entries of `es` the log ring holds exactly the last
`min (es.length) L` entries in insertion order (`record_log` pushes and then
drains the overflow from the front), and `log_count()` is `min N L`; the
analogous bound holds for `record_config_change` with `M`. -/
theorem cache_ring_bound (L M : ℕ) (es : List LogEntry) (cs : List ConfigChange) :
    ((es.foldl (fun acc e => acc.recordLog e.level e.message e.ts) (Cache.new L M)).logCount
        = min es.length L) ∧
    ((es.foldl (fun acc e => acc.recordLog e.level e.message e.ts) (Cache.new L M)).logs
        = es.drop (es.length - L)) ∧
    ((cs.foldl (fun acc e => acc.recordConfigChange e.key e.old_value e.new_value e.ts)
        (Cache.new L M)).configChangeCount = min cs.length M) ∧
    ((cs.foldl (fun acc e => acc.recordConfigChange e.key e.old_value e.new_value e.ts)
        (Cache.new L M)).config_changes = cs.drop (cs.length - M)) := by
  have h1 := foldl_recordLog es (Cache.new L M)
  have h2 := foldl_recordConfigChange cs (Cache.new L M)
  refine ⟨?_, ?_, ?_, ?_⟩
  · rw [h1]
    simp only [Cache.logCount, Cache.new, foldl_pushTrim, List.length_drop]
    omega
  · rw [h1]
    simp only [Cache.new, foldl_pushTrim]
  · rw [h2]
    simp only [Cache.configChangeCount, Cache.new, foldl_pushTrim, List.length_drop]
    omega
  · rw [h2]
    simp only [Cache.new, foldl_pushTrim]

/-! ## C7 -/

theorem upsert_fresh (c : Cache) (s : SystemService)
    (h : ∀ p ∈ c.services, p.1 ≠ s.service_name) :
    c.upsertService s = { c with services := c.services ++ [(s.service_name, s)] } := by
  unfold Cache.upsertService
  rw [if_neg]
  intro hany
  rw [List.any_eq_true] at hany
  obtain ⟨p, hp, he⟩ := hany
  exact h p hp (by simpa using he)

theorem foldl_upsert_append (svcs : List SystemService) (c : Cache)
    (hnodup : (svcs.map (fun s => s.service_name)).Nodup)
    (hdisj : ∀ s ∈ svcs, ∀ p ∈ c.services, p.1 ≠ s.service_name) :
    svcs.foldl Cache.upsertService c =
      { c with services := c.services ++ svcs.map (fun s => (s.service_name, s)) } := by
  induction svcs generalizing c with
  | nil => simp
  | cons s rest ih =>
    rw [List.foldl_cons, upsert_fresh c s (hdisj s (by simp))]
    rw [ih]
    · simp
    · exact (List.nodup_cons.1 (by simpa using hnodup)).2
    · intro t ht p hp
      rcases List.mem_append.1 hp with hp | hp
      · exact hdisj t (List.mem_cons_of_mem _ ht) p hp
      · have hp' : p = (s.service_name, s) := by simpa using hp
        subst hp'
        have hne : s.service_name ∉ rest.map (fun s => s.service_name) :=
          (List.nodup_cons.1 (by simpa using hnodup)).1
        intro he
        have he' : s.service_name = t.service_name := he
        have hmem : t.service_name ∈ rest.map (fun s => s.service_name) :=
          List.mem_map_of_mem _ ht
        rw [← he'] at hmem
        exact hne hmem

/-- Loading a snapshot of `c` into a fresh cache with bounds `L`, `M`. -/
def roundtripped (c : Cache) (L M : ℕ) : Cache :=
  (Cache.new L M).loadSnapshot c.snapshot

/-- C7: confirmed.  For any cache state whose service table is keyed by the
service name (names unique, key = `service_name` — the invariant `upsert`
maintains), snapshotting and loading into a fresh empty cache reproduces the
service table exactly and both rings element-for-element. -/
theorem cache_snapshot_roundtrip (c : Cache) (L M : ℕ)
    (hnodup : (c.services.map Prod.fst).Nodup)
    (hkeys : ∀ p ∈ c.services, p.1 = p.2.service_name) :
    (roundtripped c L M).services = c.services ∧
    (roundtripped c L M).config_changes = c.config_changes ∧
    (roundtripped c L M).logs = c.logs := by
  have hmap : (c.services.map Prod.snd).map (fun s => s.service_name) =
      c.services.map Prod.fst := by
    rw [List.map_map]
    exact List.map_congr_left (fun p hp => (hkeys p hp).symm)
  have hfold := foldl_upsert_append (c.services.map Prod.snd) (Cache.new L M)
    (by rw [hmap]; exact hnodup) (by intro s hs p hp; simp [Cache.new] at hp)
  have hserv : ((c.services.map Prod.snd).map (fun s => (s.service_name, s))) =
      c.services := by
    rw [List.map_map]
    have hpt : ∀ p ∈ c.services, ((fun s => (s.service_name, s)) ∘ Prod.snd) p = id p := by
      intro p hp
      show (p.2.service_name, p.2) = p
      rw [← hkeys p hp]
    rw [List.map_congr_left hpt, List.map_id]
  unfold roundtripped Cache.loadSnapshot Cache.snapshot
  rw [hfold]
  simp [Cache.new, hserv]

/-- A concrete cache state for the round-trip witness. -/
def wCache : Cache :=
  ⟨[("alpha", ⟨"alpha", "d1", 1, "Active", "1%", "10M"⟩),
    ("beta", ⟨"beta", "d2", 2, "Inactive", "0%", "5M"⟩)],
   [⟨"k", none, "v", 3⟩], [⟨"info", "m", 4⟩], 10, 10⟩

theorem cache_snapshot_roundtrip_witness :
    (wCache.services.map Prod.fst).Nodup ∧
    (roundtripped wCache 10 10).services = wCache.services ∧
    (roundtripped wCache 10 10).config_changes = wCache.config_changes ∧
    (roundtripped wCache 10 10).logs = wCache.logs :=
  ⟨by decide, cache_snapshot_roundtrip wCache 10 10 (by decide) (by decide)⟩

/-! ## C10 (amended) -/

theorem evaluateCondition_eq (r : MetricRegistry) (c : Condition) :
    RuleEvaluator.evaluateCondition r c =
      (r.getMetricValue c.component c.metric).map (fun mv =>
        match c.operator with
        | .greaterThan => F.fgt mv c.value
        | .lessThan => F.flt mv c.value
        | .greaterThanOrEqual => F.fge mv c.value
        | .lessThanOrEqual => F.fle mv c.value
        | .equal => F.flt (F.fabs (F.sub mv c.value)) F.epsilon
        | .notEqual => F.fge (F.fabs (F.sub mv c.value)) F.epsilon) := by
  unfold RuleEvaluator.evaluateCondition
  cases r.getMetricValue c.component c.metric <;> rfl

/-- C10 (amended): for every condition whose metric resolves to a value `v`
such that `v − value` is not NaN, `!=` evaluates to exactly the negation of
`==` (the `|v−c| < ε` / `|v−c| ≥ ε` comparisons partition the non-NaN
cases); with a NaN difference — reachable, e.g. `memory.usage` when
`total_kb = 0` — both evaluate to `false`. -/
theorem eq_ne_complementary_of_not_nan (r : MetricRegistry) (comp metric : String)
    (cv : F) (nl nl' : Option LogicalOperator) (v : F)
    (hres : r.getMetricValue comp metric = .ok v)
    (hnan : (F.sub v cv).isNaN = false) :
    RuleEvaluator.evaluateCondition r ⟨comp, metric, .notEqual, cv, nl⟩ =
      (RuleEvaluator.evaluateCondition r ⟨comp, metric, .equal, cv, nl'⟩).map
        (fun b => !b) := by
  rw [evaluateCondition_eq, evaluateCondition_eq]
  simp only [hres, Except.map]
  cases hs : F.sub v cv with
  | nan => rw [hs] at hnan; simp [F.isNaN] at hnan
  | inf b =>
    cases b <;> simp [F.fabs, F.fge, F.fle, F.flt, F.epsilon]
  | val a =>
    simp only [F.fabs, F.fge, F.fle, F.flt, F.epsilon]
    rw [← decide_not]
    congr 1
    rw [decide_eq_decide]
    exact not_lt.symm

def wRegistry : MetricRegistry := registerMetrics ⟨none, some ⟨1, 2⟩, [], [], none, none⟩

theorem eq_ne_complementary_of_not_nan_witness :
    wRegistry.getMetricValue "memory" "used" = .ok (F.val 1) ∧
    (F.sub (F.val 1) (F.val 0)).isNaN = false ∧
    RuleEvaluator.evaluateCondition wRegistry ⟨"memory", "used", .notEqual, F.val 0, none⟩ =
      (RuleEvaluator.evaluateCondition wRegistry
        ⟨"memory", "used", .equal, F.val 0, none⟩).map (fun b => !b) :=
  ⟨by decide, by decide,
    eq_ne_complementary_of_not_nan wRegistry "memory" "used" (F.val 0) none none
      (F.val 1) (by decide) (by decide)⟩

end Lynx
